import Mathlib

/-!
Shallow embedding of the `auto-renderer.py` Blender add-on.

The add-on consists of a property group of render settings, a compositor
setup routine, a render-rotations operator (the render driver), and two
scene-utility operators (clean-and-merge, create-root).  All host (Blender)
state that the code reads or writes is made explicit: the scene carries its
compositor node tree and render settings, operators are functions from the
relevant state to the new state together with a trace of the externally
visible effects (directory creation, compositor configuration, render
invocations).

Numeric conventions of the embedding:
* `steps = int(360 / props.step_angle)` (source line 108) performs Python
  float division followed by `int` truncation.  For step angles in [1, 360]
  the exact quotient 360/S is at distance at least 1/360 from any integer it
  does not equal, far above the rounding error of IEEE double division of
  two small integers, so the result equals natural-number floor division
  `360 / S`, which is what the embedding uses.
* `int(kp.co[0])` (source line 101) truncates toward zero; keyframe
  coordinates are embedded as exact rationals and `pyInt` performs the
  truncation.
* `obj.rotation_euler[2] = math.radians(i * props.step_angle)` (source line
  114) stores the yaw in radians.  Degrees-to-radians conversion is a fixed
  injective rescaling; the embedding records the yaw by its degree value
  (as an exact rational) rather than by its irrational radian image.
-/

namespace AutoRenderer

/-- User-adjustable settings of the `RenderProps` property group
(source lines 11-32). -/
structure RenderProps where
  base_name : String
  step_angle : ℕ
  output_path : String
  post_output_path : String
deriving Repr, DecidableEq

/-- The default property values declared in the source (source lines 14, 18,
24, 30). -/
def defaultProps : RenderProps :=
  { base_name := "my_render", step_angle := 45,
    output_path := "//renders/", post_output_path := "//post/" }

/-- One compositor node.  Only the pixelate node has meaningful size fields;
the embedding keeps them at 0 for the other node kinds. -/
structure CompositorNode where
  kind : String
  size_x : ℤ
  size_y : ℤ
  location : ℤ × ℤ
deriving Repr, DecidableEq

/-- A link between two node sockets, nodes referenced by their index in the
node list. -/
structure NodeLink where
  from_node : ℕ
  from_socket : String
  to_node : ℕ
  to_socket : String
deriving Repr, DecidableEq

/-- The compositor node graph of a scene. -/
structure NodeTree where
  nodes : List CompositorNode
  links : List NodeLink
deriving Repr, DecidableEq

/-- The scene state the add-on reads and writes. -/
structure Scene where
  render_props : RenderProps
  use_nodes : Bool
  node_tree : NodeTree
  frame_current : ℤ
  render_filepath : String
deriving Repr, DecidableEq

/-- The node graph built by `setup_compositor` (source lines 48-62):
`nodes.clear()` discards every existing node (and with them every link),
then exactly three nodes are created — render layers, pixelate with the
given size on both axes, composite — and linked in a chain. -/
def compositorTree (pixel_size : ℤ) : NodeTree :=
  { nodes :=
      [{ kind := "CompositorNodeRLayers", size_x := 0, size_y := 0,
         location := (-300, 0) },
       { kind := "CompositorNodePixelate", size_x := pixel_size,
         size_y := pixel_size, location := (0, 0) },
       { kind := "CompositorNodeComposite", size_x := 0, size_y := 0,
         location := (300, 0) }],
    links :=
      [{ from_node := 0, from_socket := "Image", to_node := 1,
         to_socket := "Image" },
       { from_node := 1, from_socket := "Image", to_node := 2,
         to_socket := "Image" }] }

/-- `setup_compositor` (source lines 41-62): enables compositing nodes on the
scene and replaces the node graph wholesale by the fixed three-node pixelate
chain. -/
def setup_compositor (pixel_size : ℤ) (scene : Scene) : Scene :=
  { scene with use_nodes := true, node_tree := compositorTree pixel_size }

/-- Python `int()` applied to an exact rational: truncation toward zero
(source line 101). -/
def pyInt (q : ℚ) : ℤ := q.num.tdiv (q.den : ℤ)

/-- The animation data of the active object: for each f-curve, the list of
x-coordinates (frame positions) of its keyframe points. -/
structure AnimObject where
  fcurves : List (List ℚ)
deriving Repr, DecidableEq

/-- Keyframe collection (source lines 97-101): every keyframe coordinate of
every f-curve, truncated to an integer, accumulated into a set. -/
def collect_keyframes (fcurves : List (List ℚ)) : Finset ℤ :=
  (fcurves.flatten.map pyInt).toFinset

/-- `steps = int(360 / props.step_angle)` (source line 108); see the header
note on why this is floor division for step angles in [1, 360]. -/
def planSteps (step_angle : ℕ) : ℕ := 360 / step_angle

/-- One render job of a run: the timeline frame, the yaw angle in degrees,
and the value of `counter` when the job is produced. -/
structure Job where
  frame : ℤ
  angle : ℕ
  seq : ℕ
deriving Repr, DecidableEq

/-- The inner rotation loop (source lines 113-132) viewed as a job planner:
the jobs produced for one keyframe, one per step index in the given list,
with `counter` incremented once per job. -/
def frameJobs (step_angle : ℕ) (frame : ℤ) : ℕ → List ℕ → List Job
  | _, [] => []
  | counter, i :: rest =>
      { frame := frame, angle := i * step_angle, seq := counter } ::
        frameJobs step_angle frame (counter + 1) rest

/-- The outer keyframe loop (source lines 110-132) viewed as a job planner
over the sorted keyframe list, `counter` carried across keyframes. -/
def planFrames (step_angle : ℕ) : ℕ → List ℤ → List Job
  | _, [] => []
  | counter, f :: rest =>
      frameJobs step_angle f counter (List.range (planSteps step_angle)) ++
        planFrames step_angle (counter + planSteps step_angle) rest

/-- The full job plan of one run (source lines 107-132): keyframes ascending,
`counter` starting at 1. -/
def planJobs (keyframes : Finset ℤ) (step_angle : ℕ) : List Job :=
  planFrames step_angle 1 (keyframes.sort (· ≤ ·))

/-- The raw render output path (source line 117). -/
def rawPath (props : RenderProps) (counter : ℕ) : String :=
  props.output_path ++ props.base_name ++ "_" ++ Nat.repr counter ++ ".png"

/-- The composited render output path (source lines 123-126). -/
def postPath (props : RenderProps) (counter : ℕ) : String :=
  props.post_output_path ++ props.base_name ++ "_" ++ Nat.repr counter ++
    "_pixel.png"

/-- The two pipeline stages of the extended variant. -/
inductive Stage
  | raw
  | post
deriving Repr, DecidableEq

/-- The output directory configured for a stage. -/
def stageDir (props : RenderProps) : Stage → String
  | .raw => props.output_path
  | .post => props.post_output_path

/-- The filename suffix of a stage. -/
def stageSuffix : Stage → String
  | .raw => ".png"
  | .post => "_pixel.png"

/-- The output path of a stage, as built by the source f-strings. -/
def outputPath (props : RenderProps) : Stage → ℕ → String
  | .raw => rawPath props
  | .post => postPath props

/-- One still-image render invocation together with the scene state it runs
under: current frame, object yaw (in degrees, see header note), whether
compositing is enabled, the compositor graph, and the configured output
path. -/
structure RenderEvent where
  frame : ℤ
  yaw_deg : ℚ
  use_nodes : Bool
  node_tree : NodeTree
  filepath : String
deriving Repr, DecidableEq

/-- The externally visible effects of an `execute` run, in order. -/
inductive Eff
  | makedirs (path : String)
  | configure_compositor (pixel_size : ℤ)
  | render (ev : RenderEvent)
deriving Repr, DecidableEq

/-- The render invocations of an effect trace, in order. -/
def renderEvents (trace : List Eff) : List RenderEvent :=
  trace.filterMap fun e =>
    match e with
    | .render ev => some ev
    | _ => none

/-- The two failure modes of the render operator. -/
inductive RunError
  | NoActiveObject
  | NoKeyframes
deriving Repr, DecidableEq

/-- The message passed to `self.report` for each failure (source lines 84,
104). -/
def RunError.message : RunError → String
  | .NoActiveObject => "No active object selected"
  | .NoKeyframes => "No keyframes found"

/-- The operator return value: `FINISHED` or `CANCELLED` with the reported
error. -/
inductive ExecResult
  | FINISHED
  | CANCELLED (err : RunError)
deriving Repr, DecidableEq

/-- The inner rotation loop of `execute` (source lines 113-132): for each
step index, set the yaw, render to the raw path, render to the post path,
increment `counter`.  `un` and `tree` are the scene's compositing flag and
node graph, which no statement of the loop modifies.  Returns the effect
trace and the final `counter`. -/
def stepLoop (props : RenderProps) (un : Bool) (tree : NodeTree) (frame : ℤ) :
    ℕ → List ℕ → List Eff × ℕ
  | counter, [] => ([], counter)
  | counter, i :: rest =>
      let yaw : ℚ := ((i * props.step_angle : ℕ) : ℚ)
      let ev1 : RenderEvent :=
        { frame := frame, yaw_deg := yaw, use_nodes := un,
          node_tree := tree, filepath := rawPath props counter }
      let ev2 : RenderEvent :=
        { frame := frame, yaw_deg := yaw, use_nodes := un,
          node_tree := tree, filepath := postPath props counter }
      let tail := stepLoop props un tree frame (counter + 1) rest
      (Eff.render ev1 :: Eff.render ev2 :: tail.1, tail.2)

/-- The outer keyframe loop of `execute` (source lines 110-132):
`scene.frame_set(frame)` then the inner loop, the final counter of each
keyframe's inner loop carried to the next keyframe. -/
def frameLoop (props : RenderProps) (un : Bool) (tree : NodeTree)
    (steps : ℕ) : ℕ → List ℤ → List Eff
  | _, [] => []
  | counter, f :: rest =>
      let inner := stepLoop props un tree f counter (List.range steps)
      inner.1 ++ frameLoop props un tree steps inner.2 rest

/-- `OBJECT_OT_render_rotations.execute` (source lines 78-134): abort when no
object is active; create the two output directories; configure the
compositor with pixel size 5; collect the keyframes and abort when the set
is empty; otherwise drive the nested render loop with `counter` starting
at 1 over the ascending keyframes. -/
def execute (scene : Scene) (active_object : Option AnimObject) :
    ExecResult × List Eff :=
  let props := scene.render_props
  match active_object with
  | none => (.CANCELLED .NoActiveObject, [])
  | some obj =>
      let preEffs := [Eff.makedirs props.output_path,
        Eff.makedirs props.post_output_path, Eff.configure_compositor 5]
      let scene := setup_compositor 5 scene
      let keyframes := collect_keyframes obj.fcurves
      if keyframes = ∅ then
        (.CANCELLED .NoKeyframes, preEffs)
      else
        (.FINISHED,
          preEffs ++ frameLoop props scene.use_nodes scene.node_tree
            (planSteps props.step_angle) 1 (keyframes.sort (· ≤ ·)))

/-- The raw-stage render event issued for a job under a given compositing
flag and node graph. -/
def rawEventIn (props : RenderProps) (un : Bool) (tree : NodeTree)
    (j : Job) : RenderEvent :=
  { frame := j.frame, yaw_deg := (j.angle : ℚ), use_nodes := un,
    node_tree := tree, filepath := rawPath props j.seq }

/-- The post-stage render event issued for a job under a given compositing
flag and node graph. -/
def postEventIn (props : RenderProps) (un : Bool) (tree : NodeTree)
    (j : Job) : RenderEvent :=
  { frame := j.frame, yaw_deg := (j.angle : ℚ), use_nodes := un,
    node_tree := tree, filepath := postPath props j.seq }

/-- The raw-stage render event the driver issues for a job: compositing
enabled, pixelate graph of intensity 5. -/
def rawEvent (props : RenderProps) (j : Job) : RenderEvent :=
  rawEventIn props true (compositorTree 5) j

/-- The post-stage render event the driver issues for a job: compositing
enabled, pixelate graph of intensity 5. -/
def postEvent (props : RenderProps) (j : Job) : RenderEvent :=
  postEventIn props true (compositorTree 5) j

/-- The strict enumeration order on jobs: ascending frame, then ascending
angle within a frame. -/
def JobLt (a b : Job) : Prop :=
  a.frame < b.frame ∨ (a.frame = b.frame ∧ a.angle < b.angle)

/-- Blender object types distinguished by the scene utilities. -/
inductive ObjType
  | MESH
  | EMPTY
  | OTHER
deriving Repr, DecidableEq

/-- A scene object as seen by the scene-utility operators: host identity,
type, name, selection flag, parent (by identity), and location. -/
structure SceneObject where
  id : ℕ
  obj_type : ObjType
  name : String
  selected : Bool
  parent : Option ℕ
  location : ℚ × ℚ × ℚ
deriving Repr, DecidableEq

/-- `OBJECT_OT_clean_and_merge.execute` (source lines 144-156): deselect
everything; select every `EMPTY`; `bpy.ops.object.delete()` removes the
selected objects; among the objects still selected afterwards keep the
meshes; when two or more remain, `bpy.ops.object.join()` merges every
selected mesh into the first one (made active at line 153). -/
def clean_and_merge (objects : List SceneObject) : List SceneObject :=
  let objects := objects.map fun o => { o with selected := false }
  let objects := objects.map fun o =>
    if o.obj_type == ObjType.EMPTY then { o with selected := true } else o
  let objects := objects.filter fun o => !o.selected
  let meshes := objects.filter fun o =>
    o.selected && o.obj_type == ObjType.MESH
  match meshes with
  | active :: _ :: _ =>
      objects.filter fun o =>
        !(o.selected && o.obj_type == ObjType.MESH && o.id != active.id)
  | _ => objects

/-- `OBJECT_OT_create_root.execute` (source lines 166-177): snapshot the
selection; `bpy.ops.object.empty_add` creates a new empty at the origin with
the host-assigned identity `next_id`, deselects everything else, and makes
the new object active and selected; it is renamed to "ROOT"; every snapshot
object other than the root is reparented under it. -/
def create_root (objects : List SceneObject) (next_id : ℕ) :
    List SceneObject :=
  let selected := objects.filter fun o => o.selected
  let root : SceneObject :=
    { id := next_id, obj_type := .EMPTY, name := "ROOT", selected := true,
      parent := none, location := (0, 0, 0) }
  let objects := (objects.map fun o => { o with selected := false }) ++ [root]
  objects.map fun o =>
    if (selected.map fun s => s.id).contains o.id && o.id != next_id then
      { o with parent := some next_id }
    else o

/-- The keyframe coordinate 3.2 = 16/5, in reduced explicit form so that the
kernel can evaluate `pyInt` on it. -/
def q32 : ℚ := Rat.mk' 16 5 (by decide) (by decide)

/-- The keyframe coordinate 3.9 = 39/10, in reduced explicit form. -/
def q39 : ℚ := Rat.mk' 39 10 (by decide) (by decide)

/-- A concrete scene used to instantiate theorems with hypotheses: default
properties, compositing off, empty node graph. -/
def sampleScene : Scene :=
  { render_props := defaultProps, use_nodes := false,
    node_tree := { nodes := [], links := [] }, frame_current := 1,
    render_filepath := "" }

/-- An active object whose action has no keyframes. -/
def noKeyObject : AnimObject := { fcurves := [] }

/-- An active object with a single keyframe at frame 1. -/
def oneKeyObject : AnimObject := { fcurves := [[(1 : ℚ)]] }

/-- The clean-and-merge scenario: three placeholder empties and two selected
mesh objects. -/
def mergeScene : List SceneObject :=
  [{ id := 0, obj_type := .EMPTY, name := "Empty0", selected := false,
     parent := none, location := (0, 0, 0) },
   { id := 1, obj_type := .EMPTY, name := "Empty1", selected := false,
     parent := none, location := (0, 0, 0) },
   { id := 2, obj_type := .EMPTY, name := "Empty2", selected := false,
     parent := none, location := (0, 0, 0) },
   { id := 3, obj_type := .MESH, name := "Mesh0", selected := true,
     parent := none, location := (0, 0, 0) },
   { id := 4, obj_type := .MESH, name := "Mesh1", selected := true,
     parent := none, location := (0, 0, 0) }]

/-- A one-object scene for instantiating the create-root theorem. -/
def cubeObject : SceneObject :=
  { id := 0, obj_type := .MESH, name := "Cube", selected := true,
    parent := none, location := (1, 2, 3) }

/-- Value of a decimal digit character. -/
def digitVal (c : Char) : ℕ := c.toNat - 48

/-- Value of a big-endian list of decimal digit characters. -/
def digitsVal (l : List Char) : ℕ :=
  l.foldl (fun a c => 10 * a + digitVal c) 0

theorem frameJobs_length (S : ℕ) (f : ℤ) (l : List ℕ) :
    ∀ c, (frameJobs S f c l).length = l.length := by
  induction l with
  | nil => intro c; rfl
  | cons i rest ih => intro c; simp [frameJobs, ih]

theorem frameJobs_map_angle (S : ℕ) (f : ℤ) (l : List ℕ) :
    ∀ c, (frameJobs S f c l).map Job.angle = l.map (· * S) := by
  induction l with
  | nil => intro c; rfl
  | cons i rest ih => intro c; simp [frameJobs, ih]

theorem frameJobs_map_seq (S : ℕ) (f : ℤ) (l : List ℕ) :
    ∀ c, (frameJobs S f c l).map Job.seq = List.range' c l.length := by
  induction l with
  | nil => intro c; rfl
  | cons i rest ih => intro c; simp [frameJobs, ih, List.range'_succ]

theorem frameJobs_map_frame (S : ℕ) (f : ℤ) (l : List ℕ) :
    ∀ c, (frameJobs S f c l).map Job.frame = List.replicate l.length f := by
  induction l with
  | nil => intro c; rfl
  | cons i rest ih =>
      intro c; simp [frameJobs, ih, List.replicate_succ]

theorem frame_of_mem_frameJobs (S : ℕ) (f : ℤ) (l : List ℕ) :
    ∀ c j, j ∈ frameJobs S f c l → j.frame = f := by
  induction l with
  | nil => intro c j h; simp [frameJobs] at h
  | cons i rest ih =>
      intro c j h
      simp only [frameJobs, List.mem_cons] at h
      rcases h with h | h
      · rw [h]
      · exact ih (c + 1) j h

theorem angle_of_mem_frameJobs (S : ℕ) (f : ℤ) (l : List ℕ) :
    ∀ c j, j ∈ frameJobs S f c l → ∃ i ∈ l, j.angle = i * S := by
  induction l with
  | nil => intro c j h; simp [frameJobs] at h
  | cons i rest ih =>
      intro c j h
      simp only [frameJobs, List.mem_cons] at h
      rcases h with h | h
      · exact ⟨i, List.mem_cons_self i rest, by rw [h]⟩
      · obtain ⟨i', hi', ha⟩ := ih (c + 1) j h
        exact ⟨i', List.mem_cons_of_mem i hi', ha⟩

theorem planFrames_length (S : ℕ) (frames : List ℤ) :
    ∀ c, (planFrames S c frames).length = frames.length * planSteps S := by
  induction frames with
  | nil => intro c; simp [planFrames]
  | cons f rest ih =>
      intro c
      simp [planFrames, frameJobs_length, ih, Nat.succ_mul, Nat.add_comm]

theorem frame_of_mem_planFrames (S : ℕ) (frames : List ℤ) :
    ∀ c j, j ∈ planFrames S c frames → j.frame ∈ frames := by
  induction frames with
  | nil => intro c j h; simp [planFrames] at h
  | cons f rest ih =>
      intro c j h
      simp only [planFrames, List.mem_append] at h
      rcases h with h | h
      · rw [frame_of_mem_frameJobs S f _ _ j h]; exact List.mem_cons_self f rest
      · exact List.mem_cons_of_mem f (ih _ j h)

theorem planFrames_filter_angles (S : ℕ) (f : ℤ) (frames : List ℤ)
    (hnd : frames.Nodup) (hf : f ∈ frames) :
    ∀ c, ((planFrames S c frames).filter fun j => decide (j.frame = f)).map
        Job.angle = (List.range (planSteps S)).map (· * S) := by
  induction frames with
  | nil => simp at hf
  | cons g rest ih =>
      intro c
      simp only [planFrames, List.filter_append, List.map_append]
      rcases List.mem_cons.mp hf with hfg | hfr
      · subst hfg
        have h1 : (frameJobs S f c (List.range (planSteps S))).filter
            (fun j => decide (j.frame = f)) =
            frameJobs S f c (List.range (planSteps S)) := by
          apply List.filter_eq_self.mpr
          intro j hj
          simp [frame_of_mem_frameJobs S f _ _ j hj]
        have h2 : (planFrames S (c + planSteps S) rest).filter
            (fun j => decide (j.frame = f)) = [] := by
          apply List.filter_eq_nil_iff.mpr
          intro j hj
          have := frame_of_mem_planFrames S rest _ j hj
          simp only [decide_eq_true_eq]
          intro hjf
          exact (List.nodup_cons.mp hnd).1 (hjf ▸ this)
        rw [h1, h2, frameJobs_map_angle]
        simp
      · have hgf : g ≠ f := by
          rintro rfl
          exact (List.nodup_cons.mp hnd).1 hfr
        have h1 : (frameJobs S g c (List.range (planSteps S))).filter
            (fun j => decide (j.frame = f)) = [] := by
          apply List.filter_eq_nil_iff.mpr
          intro j hj
          have := frame_of_mem_frameJobs S g _ _ j hj
          simp only [decide_eq_true_eq]
          intro hjf
          exact hgf (this ▸ hjf)
        rw [h1, ih (List.nodup_cons.mp hnd).2 hfr]
        simp

theorem planFrames_map_seq (S : ℕ) (frames : List ℤ) :
    ∀ c, (planFrames S c frames).map Job.seq =
      List.range' c (frames.length * planSteps S) := by
  induction frames with
  | nil => intro c; simp [planFrames]
  | cons f rest ih =>
      intro c
      simp only [planFrames, List.map_append, frameJobs_map_seq,
        List.length_range, ih]
      rw [show (f :: rest : List ℤ).length * planSteps S =
        planSteps S + rest.length * planSteps S by
          simp [Nat.succ_mul, Nat.add_comm]]
      have h := List.range'_append c (planSteps S) (rest.length * planSteps S) 1
      rw [Nat.one_mul] at h
      rw [Nat.add_comm (planSteps S) (rest.length * planSteps S), ← h]

theorem frameJobs_pairwise (S : ℕ) (f : ℤ) (hS : 1 ≤ S) (l : List ℕ)
    (hl : l.Pairwise (· < ·)) : ∀ c, (frameJobs S f c l).Pairwise JobLt := by
  induction l with
  | nil => intro c; exact List.Pairwise.nil
  | cons i rest ih =>
      intro c
      simp only [frameJobs, List.pairwise_cons]
      constructor
      · intro j hj
        obtain ⟨i', hi', ha⟩ := angle_of_mem_frameJobs S f rest _ j hj
        right
        refine ⟨(frame_of_mem_frameJobs S f rest _ j hj).symm, ?_⟩
        rw [ha]
        exact (Nat.mul_lt_mul_right hS).mpr ((List.pairwise_cons.mp hl).1 i' hi')
      · exact ih (List.pairwise_cons.mp hl).2 (c + 1)

theorem planFrames_pairwise (S : ℕ) (hS : 1 ≤ S) (frames : List ℤ)
    (hfr : frames.Pairwise (· < ·)) :
    ∀ c, (planFrames S c frames).Pairwise JobLt := by
  induction frames with
  | nil => intro c; exact List.Pairwise.nil
  | cons f rest ih =>
      intro c
      simp only [planFrames]
      apply List.pairwise_append.mpr
      refine ⟨frameJobs_pairwise S f hS _ (List.pairwise_lt_range _) c,
        ih (List.pairwise_cons.mp hfr).2 _, ?_⟩
      intro a ha b hb
      left
      rw [frame_of_mem_frameJobs S f _ _ a ha]
      exact (List.pairwise_cons.mp hfr).1 b.frame
        (frame_of_mem_planFrames S rest _ b hb)

/-- C1: for every non-empty keyframe set K and step angle S in [1, 360], the
planner produces exactly |K| * floor(360/S) jobs, and within each frame the
angles are exactly 0, S, 2S, ..., (floor(360/S)-1)*S; when 360 mod S is not
zero the remainder sector is never rendered. -/
theorem planner_job_count_and_angles (K : Finset ℤ) (S : ℕ)
    (_hne : K.Nonempty) (_hS1 : 1 ≤ S) (_hS2 : S ≤ 360) :
    (planJobs K S).length = K.card * (360 / S) ∧
    ∀ f ∈ K, ((planJobs K S).filter fun j => decide (j.frame = f)).map
        Job.angle = (List.range (360 / S)).map (· * S) := by
  constructor
  · rw [planJobs, planFrames_length, Finset.length_sort]
    rfl
  · intro f hf
    exact planFrames_filter_angles S f _ (Finset.sort_nodup _ K)
      ((Finset.mem_sort _).mpr hf) 1

theorem planner_job_count_and_angles_witness :
    (planJobs ({1, 10} : Finset ℤ) 100).length =
      ({1, 10} : Finset ℤ).card * (360 / 100) ∧
    ((planJobs ({1, 10} : Finset ℤ) 100).filter fun j =>
        decide (j.frame = 1)).map Job.angle =
      (List.range (360 / 100)).map (· * 100) :=
  ⟨(planner_job_count_and_angles {1, 10} 100 ⟨1, by decide⟩ (by decide)
      (by decide)).1,
   (planner_job_count_and_angles {1, 10} 100 ⟨1, by decide⟩ (by decide)
      (by decide)).2 1 (by decide)⟩

/-- C2: across one full run the sequence-index values assigned to the jobs
are exactly the contiguous range 1, ..., total job count, in order, with no
gaps, repeats or resets, and the jobs are enumerated in ascending-frame,
then ascending-angle order. -/
theorem planner_seq_contiguous_and_ordered (K : Finset ℤ) (S : ℕ)
    (_hne : K.Nonempty) (hS1 : 1 ≤ S) (_hS2 : S ≤ 360) :
    (planJobs K S).map Job.seq = List.range' 1 (K.card * (360 / S)) ∧
    (planJobs K S).Pairwise JobLt := by
  constructor
  · rw [planJobs, planFrames_map_seq, Finset.length_sort]
    rfl
  · exact planFrames_pairwise S hS1 _ (Finset.sort_sorted_lt K) 1

theorem toDigitsCore_append (b : ℕ) :
    ∀ (f n : ℕ) (ds : List Char),
      Nat.toDigitsCore b f n ds = Nat.toDigitsCore b f n [] ++ ds := by
  intro f
  induction f with
  | zero => intro n ds; simp [Nat.toDigitsCore]
  | succ f ih =>
      intro n ds
      simp only [Nat.toDigitsCore]
      by_cases h : n / b = 0
      · simp [h]
      · rw [if_neg h, if_neg h, ih (n / b) (Nat.digitChar (n % b) :: ds),
          ih (n / b) [Nat.digitChar (n % b)], List.append_assoc,
          List.singleton_append]

theorem digitsVal_append (l : List Char) (c : Char) :
    digitsVal (l ++ [c]) = 10 * digitsVal l + digitVal c := by
  simp [digitsVal, List.foldl_append]

theorem digitVal_digitChar (d : ℕ) (h : d < 10) :
    digitVal (Nat.digitChar d) = d := by
  interval_cases d <;> rfl

theorem digitsVal_toDigitsCore :
    ∀ (f n : ℕ), n < f → digitsVal (Nat.toDigitsCore 10 f n []) = n := by
  intro f
  induction f with
  | zero => intro n h; omega
  | succ f ih =>
      intro n hn
      simp only [Nat.toDigitsCore]
      by_cases h : n / 10 = 0
      · rw [if_pos h]
        have h10 : n < 10 := by omega
        have hv : digitsVal [Nat.digitChar (n % 10)] =
            digitVal (Nat.digitChar (n % 10)) := by simp [digitsVal]
        rw [hv, digitVal_digitChar (n % 10) (by omega)]
        omega
      · have hlt : n / 10 < f := by omega
        rw [if_neg h, toDigitsCore_append, digitsVal_append,
          ih (n / 10) hlt, digitVal_digitChar (n % 10) (by omega)]
        omega

theorem natRepr_data_injective (m n : ℕ)
    (h : (Nat.repr m).data = (Nat.repr n).data) : m = n := by
  have hm : (Nat.repr m).data = Nat.toDigitsCore 10 (m + 1) m [] := rfl
  have hn : (Nat.repr n).data = Nat.toDigitsCore 10 (n + 1) n [] := rfl
  have hv := digitsVal_toDigitsCore (m + 1) m (Nat.lt_succ_self m)
  rw [← hm, h, hn] at hv
  rw [← hv, digitsVal_toDigitsCore (n + 1) n (Nat.lt_succ_self n)]

theorem rawPath_injective (props : RenderProps) (m n : ℕ)
    (h : rawPath props m = rawPath props n) : m = n := by
  have hd := congrArg String.data h
  simp only [rawPath, String.data_append, List.append_assoc] at hd
  exact natRepr_data_injective m n (List.append_cancel_right
    (List.append_cancel_left (List.append_cancel_left
      (List.append_cancel_left hd))))

theorem postPath_injective (props : RenderProps) (m n : ℕ)
    (h : postPath props m = postPath props n) : m = n := by
  have hd := congrArg String.data h
  simp only [postPath, String.data_append, List.append_assoc] at hd
  exact natRepr_data_injective m n (List.append_cancel_right
    (List.append_cancel_left (List.append_cancel_left
      (List.append_cancel_left hd))))

/-- C3: for every base name, sequence index and stage, the output path is
the stage directory, then the base name, an underscore, the decimal
sequence index, and the stage suffix (with "_pixel" inserted only for the
post stage); for a fixed run and stage the mapping from sequence index to
path is injective. -/
theorem output_path_formula_and_injective (props : RenderProps) (st : Stage) :
    (∀ k, outputPath props st k =
      stageDir props st ++ props.base_name ++ "_" ++ Nat.repr k ++
        stageSuffix st) ∧
    ∀ m n, outputPath props st m = outputPath props st n → m = n := by
  cases st with
  | raw => exact ⟨fun k => rfl, fun m n h => rawPath_injective props m n h⟩
  | post => exact ⟨fun k => rfl, fun m n h => postPath_injective props m n h⟩

theorem output_path_formula_and_injective_witness :
    outputPath defaultProps Stage.post 7 =
      stageDir defaultProps Stage.post ++ defaultProps.base_name ++ "_" ++
        Nat.repr 7 ++ stageSuffix Stage.post ∧
    (7 : ℕ) = 7 :=
  ⟨(output_path_formula_and_injective defaultProps Stage.post).1 7,
   (output_path_formula_and_injective defaultProps Stage.post).2 7 7 rfl⟩

theorem planner_seq_contiguous_and_ordered_witness :
    (planJobs ({0, 45} : Finset ℤ) 90).map Job.seq =
      List.range' 1 (({0, 45} : Finset ℤ).card * (360 / 90)) ∧
    (planJobs ({0, 45} : Finset ℤ) 90).Pairwise JobLt :=
  planner_seq_contiguous_and_ordered {0, 45} 90 ⟨0, by decide⟩ (by decide)
    (by decide)

theorem q32_eq : q32 = (3.2 : ℚ) := by
  rw [q32, Rat.mk'_eq_divInt, Rat.divInt_eq_div]; norm_num

theorem q39_eq : q39 = (3.9 : ℚ) := by
  rw [q39, Rat.mk'_eq_divInt, Rat.divInt_eq_div]; norm_num

/-- C4: keyframe collection truncates fractional keyframe positions to
integers and collects them into a set, so source keyframes at 3.2 and 3.9
collapse to the single integer keyframe 3 and the planner emits one block
of jobs for frame 3 rather than two. -/
theorem fractional_keyframes_collapse :
    pyInt q32 = 3 ∧ pyInt q39 = 3 ∧
    collect_keyframes [[q32, q39]] = {3} ∧
    ∀ S : ℕ, (planJobs (collect_keyframes [[q32, q39]]) S).map Job.frame =
      List.replicate (360 / S) 3 := by
  refine ⟨by decide, by decide, by decide, ?_⟩
  intro S
  have h : collect_keyframes [[q32, q39]] = {3} := by decide
  have hs : (({3} : Finset ℤ).sort (· ≤ ·)) = [3] := Finset.sort_singleton _ 3
  rw [h, planJobs, hs]
  simp [planFrames, frameJobs_map_frame, planSteps]

/-- C5: the run fails with NoActiveObject exactly when no object is active,
fails with NoKeyframes exactly when an active object exists whose collected
keyframe set is empty, and on any failure zero render invocations are
attempted. -/
theorem run_failure_conditions (scene : Scene) (o : Option AnimObject) :
    ((execute scene o).1 = ExecResult.CANCELLED RunError.NoActiveObject ↔
      o = none) ∧
    ((execute scene o).1 = ExecResult.CANCELLED RunError.NoKeyframes ↔
      ∃ obj, o = some obj ∧ collect_keyframes obj.fcurves = ∅) ∧
    ((execute scene o).1 ≠ ExecResult.FINISHED →
      renderEvents (execute scene o).2 = []) := by
  match o with
  | none => simp [execute, renderEvents]
  | some obj =>
      by_cases h : collect_keyframes obj.fcurves = ∅
      · simp [execute, h, renderEvents]
      · simp [execute, h, renderEvents]

theorem run_failure_conditions_witness :
    renderEvents (execute sampleScene (some noKeyObject)).2 = [] :=
  (run_failure_conditions sampleScene (some noKeyObject)).2.2 (by decide)

/-- C6 is refuted: a run with an active object but no keyframes does create
both output directories and does configure the compositor before it aborts
with NoKeyframes. -/
theorem validation_order_counterexample :
    (execute sampleScene (some noKeyObject)).1 =
      ExecResult.CANCELLED RunError.NoKeyframes ∧
    Eff.makedirs sampleScene.render_props.output_path ∈
      (execute sampleScene (some noKeyObject)).2 ∧
    Eff.makedirs sampleScene.render_props.post_output_path ∈
      (execute sampleScene (some noKeyObject)).2 ∧
    Eff.configure_compositor 5 ∈
      (execute sampleScene (some noKeyObject)).2 := by
  decide

/-- C6 (amended): only the active-object check precedes directory creation
and compositor configuration; the keyframe check runs after both, so a
NoKeyframes abort leaves exactly the two directory creations and the
compositor configuration performed (and no renders), while a NoActiveObject
abort performs no effect at all. -/
theorem validation_split_around_setup (scene : Scene) (obj : AnimObject)
    (h : collect_keyframes obj.fcurves = ∅) :
    (execute scene (some obj)).1 =
      ExecResult.CANCELLED RunError.NoKeyframes ∧
    (execute scene (some obj)).2 =
      [Eff.makedirs scene.render_props.output_path,
       Eff.makedirs scene.render_props.post_output_path,
       Eff.configure_compositor 5] ∧
    (execute scene none).2 = [] := by
  refine ⟨?_, ?_, rfl⟩ <;> simp [execute, h]

theorem validation_split_around_setup_witness :
    (execute sampleScene (some noKeyObject)).1 =
      ExecResult.CANCELLED RunError.NoKeyframes ∧
    (execute sampleScene (some noKeyObject)).2 =
      [Eff.makedirs sampleScene.render_props.output_path,
       Eff.makedirs sampleScene.render_props.post_output_path,
       Eff.configure_compositor 5] ∧
    (execute sampleScene none).2 = [] :=
  validation_split_around_setup sampleScene noKeyObject (by decide)

/-- C7: configuring the compositor is idempotent; after any invocation the
node graph has exactly 3 nodes (source, pixelate with the given intensity
on both axes, sink) and exactly 2 links, whatever graph was there before
being discarded rather than accumulated. -/
theorem setup_compositor_idempotent_graph (scene : Scene) (p : ℤ) :
    (setup_compositor p scene).node_tree.nodes.length = 3 ∧
    (setup_compositor p scene).node_tree.links.length = 2 ∧
    setup_compositor p (setup_compositor p scene) = setup_compositor p scene ∧
    (setup_compositor p scene).node_tree.nodes.map CompositorNode.kind =
      ["CompositorNodeRLayers", "CompositorNodePixelate",
        "CompositorNodeComposite"] ∧
    ((setup_compositor p scene).node_tree.nodes.map fun nd =>
      (nd.size_x, nd.size_y)) = [(0, 0), (p, p), (0, 0)] ∧
    ((setup_compositor p scene).node_tree.links.map fun l =>
      (l.from_node, l.to_node)) = [(0, 1), (1, 2)] :=
  ⟨rfl, rfl, rfl, rfl, rfl, rfl⟩

theorem clean_and_merge_no_join (objects : List SceneObject) :
    clean_and_merge objects =
      (objects.filter fun o => !(o.obj_type == ObjType.EMPTY)).map
        fun o => { o with selected := false } := by
  have hsurv :
      (((objects.map fun o => { o with selected := false }).map fun o =>
          if o.obj_type == ObjType.EMPTY then { o with selected := true }
          else o).filter fun o => !o.selected) =
        (objects.filter fun o => !(o.obj_type == ObjType.EMPTY)).map
          fun o => { o with selected := false } := by
    rw [List.map_map, List.filter_map]
    rw [List.filter_congr (q := fun o => !(o.obj_type == ObjType.EMPTY)) ?hp]
    case hp =>
      intro o _
      by_cases h : o.obj_type = ObjType.EMPTY <;> simp [h]
    apply List.map_congr_left
    intro o ho
    have h := (List.mem_filter.mp ho).2
    simp only [Bool.not_eq_true', beq_eq_false_iff_ne] at h
    simp [h]
  have hmesh :
      ((objects.filter fun o => !(o.obj_type == ObjType.EMPTY)).map
          (fun o => { o with selected := false })).filter
        (fun o => o.selected && o.obj_type == ObjType.MESH) = [] := by
    apply List.filter_eq_nil_iff.mpr
    intro o ho
    obtain ⟨o', _, rfl⟩ := List.mem_map.mp ho
    simp
  simp only [clean_and_merge]
  rw [hsurv, hmesh]

/-- C8 is a code bug: on a scene with three placeholder empties and two
selected mesh objects, the operator deletes the empties but never merges
the meshes — the deselect-all at its start clears the mesh selection, so
after the delete no object is selected and the join branch cannot run.  The
object count drops by 3, not 4, and both meshes survive. -/
theorem clean_and_merge_code_behavior :
    (clean_and_merge mergeScene).length = 2 ∧
    mergeScene.length - (clean_and_merge mergeScene).length = 3 ∧
    ((clean_and_merge mergeScene).filter fun o =>
      o.obj_type == ObjType.MESH).length = 2 ∧
    ((clean_and_merge mergeScene).filter fun o =>
      o.obj_type == ObjType.EMPTY) = [] ∧
    (clean_and_merge mergeScene).map SceneObject.name =
      ["Mesh0", "Mesh1"] := by
  decide

/-- C9: the operator adds exactly one new placeholder object, named "ROOT",
placed at the origin and carrying the fresh host identity, and every
object of the pre-creation selection snapshot ends up reparented under
it. -/
theorem create_root_spec (objects : List SceneObject) (next_id : ℕ)
    (hfresh : ∀ o ∈ objects, o.id ≠ next_id) :
    (create_root objects next_id).length = objects.length + 1 ∧
    ((create_root objects next_id).filter fun o => o.id == next_id) =
      [{ id := next_id, obj_type := ObjType.EMPTY, name := "ROOT",
         selected := true, parent := none, location := (0, 0, 0) }] ∧
    ∀ o ∈ objects, o.selected = true →
      { o with selected := false, parent := some next_id } ∈
        create_root objects next_id := by
  refine ⟨by simp [create_root], ?_, ?_⟩
  · simp only [create_root, List.map_append, List.filter_append]
    have h1 : (((objects.map fun o => { o with selected := false }).map
        fun o =>
          if ((objects.filter fun o => o.selected).map fun s => s.id).contains
              o.id && o.id != next_id then
            { o with parent := some next_id }
          else o).filter fun o => o.id == next_id) = [] := by
      apply List.filter_eq_nil_iff.mpr
      intro o ho
      obtain ⟨o', ho', hoeq⟩ := List.mem_map.mp ho
      obtain ⟨o'', ho'', hoeq'⟩ := List.mem_map.mp ho'
      have hid : o.id = o''.id := by
        subst hoeq hoeq'
        split <;> rfl
      have := hfresh o'' ho''
      simp only [beq_iff_eq, hid]
      exact this
    rw [h1]
    simp
  · intro o ho hsel
    simp only [create_root, List.map_append, List.mem_append]
    left
    refine List.mem_map.mpr ⟨{ o with selected := false }, ?_, ?_⟩
    · exact List.mem_map.mpr ⟨o, ho, rfl⟩
    · simp
      intro h
      exact absurd (h o ho hsel rfl) (hfresh o ho)

theorem create_root_spec_witness :
    ((create_root [cubeObject] 1).filter fun o => o.id == 1) =
      [{ id := 1, obj_type := ObjType.EMPTY, name := "ROOT",
         selected := true, parent := none, location := (0, 0, 0) }] :=
  (create_root_spec [cubeObject] 1 (by decide)).2.1

theorem stepLoop_snd (props : RenderProps) (un : Bool) (tree : NodeTree)
    (f : ℤ) (l : List ℕ) :
    ∀ c, (stepLoop props un tree f c l).2 = c + l.length := by
  induction l with
  | nil => intro c; rfl
  | cons i rest ih =>
      intro c
      simp only [stepLoop, ih, List.length_cons]
      omega

theorem stepLoop_fst (props : RenderProps) (un : Bool) (tree : NodeTree)
    (f : ℤ) (l : List ℕ) :
    ∀ c, (stepLoop props un tree f c l).1 =
      (frameJobs props.step_angle f c l).flatMap fun j =>
        [Eff.render (rawEventIn props un tree j),
         Eff.render (postEventIn props un tree j)] := by
  induction l with
  | nil => intro c; rfl
  | cons i rest ih =>
      intro c
      simp [stepLoop, frameJobs, ih, rawEventIn, postEventIn]

theorem frameLoop_eq (props : RenderProps) (un : Bool) (tree : NodeTree)
    (frames : List ℤ) :
    ∀ c, frameLoop props un tree (planSteps props.step_angle) c frames =
      (planFrames props.step_angle c frames).flatMap fun j =>
        [Eff.render (rawEventIn props un tree j),
         Eff.render (postEventIn props un tree j)] := by
  induction frames with
  | nil => intro c; rfl
  | cons f rest ih =>
      intro c
      simp only [frameLoop, planFrames, stepLoop_fst, stepLoop_snd,
        List.length_range, List.flatMap_append, ih]

theorem renderEvents_pairs (jobs : List Job) (e1 e2 : Job → RenderEvent) :
    renderEvents (jobs.flatMap fun j =>
      [Eff.render (e1 j), Eff.render (e2 j)]) =
      jobs.flatMap fun j => [e1 j, e2 j] := by
  induction jobs with
  | nil => rfl
  | cons j rest ih =>
      simp [renderEvents] at ih ⊢
      simp [ih]

/-- C10: every successful run issues, per job, exactly two render
invocations under identical scene state — same timeline frame, same yaw,
compositing enabled with the same three-node pixelate graph — differing
only in the output path (raw path first, post "_pixel" path second); in
particular the raw-stage render also passes through the pixelation
compositor. -/
theorem driver_two_renders_per_job (scene : Scene) (obj : AnimObject)
    (hne : (collect_keyframes obj.fcurves).Nonempty) :
    (renderEvents (execute scene (some obj)).2 =
      (planJobs (collect_keyframes obj.fcurves)
          scene.render_props.step_angle).flatMap fun j =>
        [rawEvent scene.render_props j, postEvent scene.render_props j]) ∧
    ∀ j : Job,
      (rawEvent scene.render_props j).frame =
        (postEvent scene.render_props j).frame ∧
      (rawEvent scene.render_props j).yaw_deg =
        (postEvent scene.render_props j).yaw_deg ∧
      (rawEvent scene.render_props j).use_nodes = true ∧
      (postEvent scene.render_props j).use_nodes = true ∧
      (rawEvent scene.render_props j).node_tree = compositorTree 5 ∧
      (postEvent scene.render_props j).node_tree = compositorTree 5 ∧
      (rawEvent scene.render_props j).filepath =
        rawPath scene.render_props j.seq ∧
      (postEvent scene.render_props j).filepath =
        postPath scene.render_props j.seq := by
  constructor
  · have h : ¬ collect_keyframes obj.fcurves = ∅ := by
      simpa [← Finset.nonempty_iff_ne_empty] using hne
    simp only [execute, if_neg h, setup_compositor]
    rw [frameLoop_eq]
    simp only [renderEvents, List.filterMap_append, renderEvents_pairs,
      planJobs]
    have hpre : ([Eff.makedirs scene.render_props.output_path,
        Eff.makedirs scene.render_props.post_output_path,
        Eff.configure_compositor 5].filterMap fun e =>
          match e with
          | .render ev => some ev
          | _ => none) = [] := rfl
    rw [hpre, List.nil_append]
    have := renderEvents_pairs
      (planFrames scene.render_props.step_angle 1
        ((collect_keyframes obj.fcurves).sort (· ≤ ·)))
      (rawEventIn scene.render_props true (compositorTree 5))
      (postEventIn scene.render_props true (compositorTree 5))
    simp only [renderEvents] at this
    rw [this]
    rfl
  · intro j
    exact ⟨rfl, rfl, rfl, rfl, rfl, rfl, rfl, rfl⟩

theorem driver_two_renders_per_job_witness :
    renderEvents (execute sampleScene (some oneKeyObject)).2 =
      (planJobs (collect_keyframes oneKeyObject.fcurves)
          sampleScene.render_props.step_angle).flatMap fun j =>
        [rawEvent sampleScene.render_props j,
         postEvent sampleScene.render_props j] :=
  (driver_two_renders_per_job sampleScene oneKeyObject ⟨1, by decide⟩).1

end AutoRenderer
